import Mathlib

/-!
Verification of the `ibsnre` ratio-estimation core (`snre_base.py`, `snre_iba.py`).

The development shallowly embeds the pieces of `RatioEstimator` and `SNRE_IB_A`
that the checked properties talk about:

* the atomic-batch constructions `_classifier_logits` / `_correction_logits`
  (modelled at the level of row indices, with the support of
  `torch.multinomial(probs, k, replacement=False)` captured by a predicate);
* the tensor *shapes* flowing through `_loss_terms` (PyTorch's
  `torch.binary_cross_entropy_with_logits` applies `mean` reduction by default,
  which is the fact several claims hinge on);
* the real-valued correction term `_correction` of `SNRE_IB_A`;
* the `anneal` epoch loop with its law-of-cooling schedule, including the\n  `TypeError` its body raises out of `torch.mean` on the tuple `_loss` returns;
* the `num_atoms` clamping performed by `train` / `anneal`;
* the training-data selection driven by `discard_prior_samples`;
* the control flow of `build_posterior`.

Helpers that live elsewhere in the repository (outside the two embedded files)
are modelled from the specification and are marked as such in their doc
comments.
-/

/-! ## Atomic batches (`_classifier_logits`, lines 493-512) -/

/-- Support of `choices = torch.multinomial(probs, num_samples=k, replacement=False)`
where `probs` is the `n × n` matrix `ones * (1 - eye) / (n - 1)`: row `m` yields
`k` pairwise distinct indices below `n`, none equal to `m` (the zeroed diagonal). -/
def ValidDraw (n k : ℕ) (c : ℕ → ℕ → ℕ) : Prop :=
  ∀ m, m < n → ∀ a, a < k →
    c m a < n ∧ c m a ≠ m ∧ ∀ b, b < k → a ≠ b → c m a ≠ c m b

instance (n k : ℕ) (c : ℕ → ℕ → ℕ) : Decidable (ValidDraw n k c) := by
  unfold ValidDraw; infer_instance

/-- Row indices of the atom set built for anchor `i` in `_classifier_logits`:
`torch.cat((theta[:, None, :], contrasting_theta), dim=1)` puts row `i` itself
at position 0, followed by the `num_atoms - 1` rows `theta[choices[i]]`. -/
def classifier_block (num_atoms : ℕ) (c : ℕ → ℕ → ℕ) (i : ℕ) : List ℕ :=
  i :: (List.range (num_atoms - 1)).map (c i)

/-- Row indices of the flattened `[batch_size * num_atoms, -1]` tensor
`atomic_theta` of `_classifier_logits`. -/
def classifier_atom_indices (batch_size num_atoms : ℕ) (c : ℕ → ℕ → ℕ) : List ℕ :=
  ((List.range batch_size).map (classifier_block num_atoms c)).flatten

/-- The `atomic_theta` tensor of `_classifier_logits`, as the list of θ rows
selected by `classifier_atom_indices` (each row abstracted to one value). -/
def classifier_atomic_theta {α : Type} (theta : List α) (d : α) (num_atoms : ℕ)
    (c : ℕ → ℕ → ℕ) : List α :=
  (classifier_atom_indices theta.length num_atoms c).map (fun j => theta.getD j d)

/-! ## Correction-term atomic batch (`_correction_logits`, lines 514-554) -/

/-- Index map of `_expand_exclude_same` (lines 478-491): entry `m` of the
diagonal-removed expansion for outer index `i` is original row `m` when
`m < i` and row `m + 1` otherwise. Both `tt` (thetas) and `xx` (observations)
in `_correction_logits` are built with this map, so position 0 of block
`(i, m)` holds the θ of the very row whose `x` is the block's observation. -/
def exclude_same_index (i m : ℕ) : ℕ :=
  if m < i then m else m + 1

/-- Support of the stacked draw
`torch.stack([torch.multinomial(probs, num_atoms - 1, replacement=False) for _ in range(batch_size)])`
in `_correction_logits`, whose `probs` is the `(n-1) × (n-1)` zero-diagonal
matrix: each stack layer is a `ValidDraw` over the reduced batch. -/
def ValidStackDraw (batch_size num_atoms : ℕ) (c : ℕ → ℕ → ℕ → ℕ) : Prop :=
  ∀ i, i < batch_size → ValidDraw (batch_size - 1) (num_atoms - 1) (c i)

instance (n k : ℕ) (c : ℕ → ℕ → ℕ → ℕ) : Decidable (ValidStackDraw n k c) := by
  unfold ValidStackDraw; infer_instance

/-- Row indices of the atom set of block `(i, m)` in `_correction_logits`:
`torch.cat((tt[:, :, None, :], contrasting_theta), dim=2)` puts
`tt[i, m] = theta[exclude_same_index i m]` at position 0, followed by
`contrasting_theta[i, m] = theta[choices[i, m]]` — note that the drawn values
`choices[i, m, k] < batch_size - 1` index the *full* `theta` tensor directly,
without being routed through `exclude_same_index`. -/
def correction_block (num_atoms : ℕ) (c : ℕ → ℕ → ℕ → ℕ) (i m : ℕ) : List ℕ :=
  exclude_same_index i m :: (List.range (num_atoms - 1)).map (c i m)

/-- Original row index of the observation paired with block `(i, m)`:
`repeated_xx` repeats `xx = _expand_exclude_same(x)`, so the observation is
`x[exclude_same_index i m]`. -/
def correction_observation_index (i m : ℕ) : ℕ :=
  exclude_same_index i m

/-- Row indices of the flattened
`[batch_size * reduced_batch_size * num_atoms, -1]` tensor `atomic_theta`
of `_correction_logits`. -/
def correction_atom_indices (batch_size num_atoms : ℕ) (c : ℕ → ℕ → ℕ → ℕ) : List ℕ :=
  ((List.range batch_size).map (fun i =>
    (((List.range (batch_size - 1)).map (fun m =>
      correction_block num_atoms c i m))).flatten)).flatten

/-- The `atomic_theta` tensor of `_correction_logits` as the selected θ rows. -/
def correction_atomic_theta {α : Type} (theta : List α) (d : α) (num_atoms : ℕ)
    (c : ℕ → ℕ → ℕ → ℕ) : List α :=
  (correction_atom_indices theta.length num_atoms c).map (fun j => theta.getD j d)

/-- With `batch_size = 3` and `num_atoms = 2` the reduced probability matrix is
`2 × 2` with a zeroed diagonal, so each row of every stack layer has a single
admissible index and the multinomial draw is forced to this function. -/
def forced_draw : ℕ → ℕ → ℕ → ℕ :=
  fun _ m _ => if m = 0 then 1 else 0

/-! ## Tensor shapes through `_loss_terms` (`snre_iba.py`, lines 169-205) -/

/-- A tensor shape; `[]` is a 0-dimensional (scalar) tensor. -/
abbrev Shape := List ℕ

/-- Shape semantics of `Tensor.squeeze()`: all size-1 dimensions are removed. -/
def squeeze_shape (s : Shape) : Shape :=
  s.filter (fun d => d ≠ 1)

/-- Modelled from the spec: the Classifier Oracle maps a batch of (θ, x) rows
to scalar logits, one per row, so the network output for `rows` inputs has
shape `[rows, 1]` (the network module itself is outside the embedded files). -/
def net_output_shape (rows : ℕ) : Shape :=
  [rows, 1]

/-- Shape of `_classifier_logits(theta, x, num_atoms)`: the network is applied
to the flattened `[batch_size * num_atoms, -1]` atomic batch. -/
def classifier_logits_shape (batch_size num_atoms : ℕ) : Shape :=
  net_output_shape (batch_size * num_atoms)

/-- Shape of `_correction_logits(theta, x, num_atoms)`: line 552 explicitly
reshapes the output to `[num_atoms * batch_size, reduced_batch_size]`. -/
def correction_logits_shape (batch_size num_atoms : ℕ) : Shape :=
  [num_atoms * batch_size, batch_size - 1]

/-- Shape semantics of `torch.binary_cross_entropy_with_logits(input, target)`:
the default reduction is `mean`, producing a 0-dimensional scalar; the two
shapes must agree (the call sites only ever produce equal shapes, so general
broadcasting is not modelled), else the call raises. -/
def bce_with_logits_mean_shape (input target : Shape) : Option Shape :=
  if input = target then some [] else none

/-- Shape semantics of `torch.logsumexp(t, dim=-1)`: the last dimension is
reduced away; on a 0-dimensional tensor PyTorch wraps `dim=-1` onto the single
implicit dimension and returns a 0-dimensional tensor, which `dropLast` on `[]`
also yields. -/
def logsumexp_last_shape (s : Shape) : Shape :=
  s.dropLast

/-- Shape of `SNRE_IB_A._correction(logits, dim=-1)` (lines 162-167):
`neg_h = -torch.binary_cross_entropy_with_logits(logits, torch.sigmoid(logits))`
is mean-reduced to a scalar, then `torch.logsumexp(neg_h, dim=-1) - torch.log(m)`
keeps a scalar. -/
def correction_shape (logits : Shape) : Option Shape :=
  (bce_with_logits_mean_shape logits logits).map logsumexp_last_shape

/-- Shapes of the triple returned by `SNRE_IB_A._loss_terms` (lines 169-205):
`logits = self._classifier_logits(theta, x, num_atoms).squeeze()`,
`labels = torch.ones(2 * batch_size)` (with the odd entries zeroed),
`entropy_yw = torch.binary_cross_entropy_with_logits(logits, labels)`,
`entropy_zw = torch.binary_cross_entropy_with_logits(logits, torch.sigmoid(logits))`,
`exp_neg_entropy_zw = self._correction(self._correction_logits(theta, x, num_atoms), dim=-1)`. -/
def loss_terms_shapes (batch_size num_atoms : ℕ) : Option (Shape × Shape × Shape) := do
  let logits := squeeze_shape (classifier_logits_shape batch_size num_atoms)
  let labels : Shape := [2 * batch_size]
  let entropy_yw ← bce_with_logits_mean_shape logits labels
  let entropy_zw ← bce_with_logits_mean_shape logits logits
  let corr ← correction_shape (correction_logits_shape batch_size num_atoms)
  pure (entropy_yw, entropy_zw, corr)

/-! ## The correction term value (`SNRE_IB_A._correction`, lines 162-167) -/

/-- The logistic sigmoid `torch.sigmoid`. -/
noncomputable def sigmoid (x : ℝ) : ℝ :=
  1 / (1 + Real.exp (-x))

/-- Elementwise binary cross-entropy with logits,
`-(t * log σ(x) + (1 - t) * log (1 - σ(x)))`, the quantity whose mean
`torch.binary_cross_entropy_with_logits` returns. -/
noncomputable def bce_with_logits_elt (x t : ℝ) : ℝ :=
  -(t * Real.log (sigmoid x) + (1 - t) * Real.log (1 - sigmoid x))

/-- The value of `torch.binary_cross_entropy_with_logits(logits, torch.sigmoid(logits))`
on a matrix of logits: default `mean` reduction over all elements. -/
noncomputable def bce_self_mean (logits : List (List ℝ)) : ℝ :=
  ((logits.flatten.map (fun x => bce_with_logits_elt x (sigmoid x))).sum) /
    (logits.flatten.length : ℝ)

/-- Log-sum-exp of a list of reals. -/
noncomputable def logsumexp (l : List ℝ) : ℝ :=
  Real.log ((l.map Real.exp).sum)

/-- The value computed by `SNRE_IB_A._correction(logits, dim=-1)` on a logits
matrix: `m = logits.size(-1)` is the row length, `neg_h` is the *mean-reduced*
scalar `-torch.binary_cross_entropy_with_logits(logits, torch.sigmoid(logits))`,
and `torch.logsumexp(neg_h, dim=-1)` over that 0-dimensional tensor reduces the
single implicit element, i.e. is `logsumexp` of the one-element list. -/
noncomputable def correction_value (logits : List (List ℝ)) : ℝ :=
  logsumexp [-(bce_self_mean logits)] - Real.log ((logits.headD []).length : ℝ)

/-- Follows the spec's words, for comparison with `correction_value`: for one
anchor row, the naive `log (mean (exp (negative entropy)))` over the `N - 1`
leave-one-out entries, with negative entropy the negated elementwise binary
cross-entropy between each logit and its own sigmoid. -/
noncomputable def spec_naive_correction (row : List ℝ) : ℝ :=
  Real.log (((row.map (fun x => Real.exp (-(bce_with_logits_elt x (sigmoid x))))).sum) /
    (row.length : ℝ))

/-! ## The anneal epoch loop (`RatioEstimator.anneal`, lines 346-403, 429) -/

/-- The `law_of_cooling` closure of `anneal` (lines 346-350), with its fixed
`epsilon = 0.01`: `lagrange_multiplier + (epsilon - lagrange_multiplier) * exp(-annealing_rate * x)`. -/
noncomputable def law_of_cooling (lagrange_multiplier annealing_rate : ℝ) (x : ℕ) : ℝ :=
  lagrange_multiplier + (0.01 - lagrange_multiplier) * Real.exp (-(annealing_rate * x))

/-- Result values of `self._loss` at the Python level: `_loss`
(snre_base.py:578-595) returns the 3-tuple `(objective, regularizer, mixed)`
of tensors. `train` unpacks it (`_, _, train_losses = self._loss(...)`,
line 231); `anneal` binds the whole tuple to `train_losses` (lines 415-417). -/
inductive TorchVal where
  | tensor : TorchVal
  | tuple3 : TorchVal → TorchVal → TorchVal → TorchVal
deriving DecidableEq

/-- The value `anneal` binds to `train_losses` at lines 415-417: the 3-tuple
returned by `self._loss`. -/
def loss_call_result : TorchVal :=
  TorchVal.tuple3 TorchVal.tensor TorchVal.tensor TorchVal.tensor

/-- Python exceptions relevant to the anneal epoch loop. -/
inductive PyError where
  | typeError
deriving DecidableEq

/-- Behaviour of `torch.mean(input)`: it requires a Tensor argument and raises
`TypeError` on a tuple — which is what `torch.mean(train_losses)` at line 418
does to the tuple bound at line 415. -/
def torch_mean : TorchVal → Except PyError TorchVal
  | TorchVal.tensor => Except.ok TorchVal.tensor
  | TorchVal.tuple3 _ _ _ => Except.error PyError.typeError

/-- Observable trace of one `anneal` call\'s epoch loop (lines 397-456): the
epoch counter, the opaque convergence bookkeeping (best validation log-prob
and friends, updated inside `self._converged`), the Lagrange multipliers
handed to the `self._loss` calls, the number of completed gradient updates
(`optimizer.step()`, line 427), the number of convergence checks run, and the
exception in flight, if any. -/
structure AnnealTrace (β : Type) where
  epoch : ℕ
  bookkeeping : β
  lossMultipliers : List ℝ
  gradUpdates : ℕ
  convChecks : ℕ
  raised : Option PyError

/-- One pass of the `while self.epoch < max_num_epochs` body of `anneal`
(lines 397-429), for a training loader with at least one batch: the
convergence check runs with its Boolean result discarded (line 401), the
annealed multiplier `law_of_cooling(self.epoch)` is computed (line 403) and
passed to `self._loss` on the epoch\'s first batch (lines 415-417), and
`torch.mean` is applied to the bound result (line 418). Since `self._loss`
returns a 3-tuple, that call raises `TypeError`, aborting the body before the
backward pass, the gradient update (line 427) and `self.epoch += 1`
(line 429); were the result a Tensor, the body would complete the epoch. -/
noncomputable def anneal_epoch_body {β : Type} (conv : β → ℕ → Bool × β)
    (target rate : ℝ) (st : AnnealTrace β) : AnnealTrace β :=
  let checked : AnnealTrace β :=
    { st with
      bookkeeping := (conv st.bookkeeping st.epoch).2
      convChecks := st.convChecks + 1
      lossMultipliers := st.lossMultipliers ++ [law_of_cooling target rate st.epoch] }
  match torch_mean loss_call_result with
  | Except.error e => { checked with raised := some e }
  | Except.ok _ =>
    { checked with epoch := checked.epoch + 1, gradUpdates := checked.gradUpdates + 1 }

/-- The `anneal` epoch loop on explicit fuel: iterate the body while no
exception is in flight (a raised exception propagates out of the call) and the
epoch counter is below `max_num_epochs`. -/
noncomputable def anneal_loop_run {β : Type} (conv : β → ℕ → Bool × β)
    (target rate : ℝ) (max_num_epochs : ℕ) : ℕ → AnnealTrace β → AnnealTrace β
  | 0, st => st
  | fuel + 1, st =>
    if st.raised = none ∧ st.epoch < max_num_epochs then
      anneal_loop_run conv target rate max_num_epochs fuel
        (anneal_epoch_body conv target rate st)
    else st

/-- A full `anneal` call\'s epoch loop from a fresh training state
(`self.epoch = 0`, line 395) with no exception in flight; the fuel
`max_num_epochs` bounds the number of loop iterations. -/
noncomputable def anneal_run {β : Type} (conv : β → ℕ → Bool × β)
    (target rate : ℝ) (max_num_epochs : ℕ) (b : β) : AnnealTrace β :=
  anneal_loop_run conv target rate max_num_epochs max_num_epochs
    ⟨0, b, [], 0, 0, none⟩

/-! ## num_atoms clamping (`train` lines 191-195, `anneal` lines 371-375) -/

/-- Modelled from the spec: `clamp_and_warn` (imported from `sbi.utils`, outside
the embedded files) clamps a value into the interval `[min_val, max_val]`. -/
def clamp_and_warn (val min_val max_val : ℕ) : ℕ :=
  max min_val (min val max_val)

/-- Modelled from the spec: the effective batch size of the validation data
loader (built by `get_dataloaders`, outside the embedded files) is the
requested training batch size capped by the number of validation examples. -/
def val_loader_batch_size (training_batch_size num_val : ℕ) : ℕ :=
  min training_batch_size num_val

/-- Number of batches yielded by the validation data loader, which is what
Python's `len(val_loader)` returns for a PyTorch `DataLoader` (with
`drop_last`, the number of full batches). -/
def val_loader_num_batches (training_batch_size num_val : ℕ) : ℕ :=
  num_val / val_loader_batch_size training_batch_size num_val

/-- Line 191 of `train` and line 371 of `anneal`:
`clipped_batch_size = min(training_batch_size, len(val_loader))`. -/
def clipped_batch_size (training_batch_size num_val : ℕ) : ℕ :=
  min training_batch_size (val_loader_num_batches training_batch_size num_val)

/-- The `num_atoms` value actually used by `train` / `anneal` after lines
193-195 / 373-375:
`num_atoms = clamp_and_warn("num_atoms", num_atoms, min_val=2, max_val=clipped_batch_size)`. -/
def num_atoms_used (num_atoms training_batch_size num_val : ℕ) : ℕ :=
  clamp_and_warn num_atoms 2 (clipped_batch_size training_batch_size num_val)

/-- Follows the spec's words, for comparison with `num_atoms_used`: `num_atoms`
clamped to `[2, min(training_batch_size, validation_batch_size)]`, the upper
bound being the smaller of the two loaders' effective batch sizes. -/
def spec_num_atoms_used (num_atoms training_batch_size num_val : ℕ) : ℕ :=
  clamp_and_warn num_atoms 2
    (min training_batch_size (val_loader_batch_size training_batch_size num_val))

/-! ## Training-data selection (`train` lines 172-178, `anneal` lines 352-358) -/

/-- Modelled from the spec: `get_simulations(starting_round, ...)` (defined on
the `NeuralInference` base class, outside the embedded files) concatenates the
rows of every stored batch whose round tag is at least the starting index, so
starting index 1 excludes exactly the round-0 batches. Each stored batch is a
round tag paired with its rows (rows abstracted to one value each). -/
def get_simulations_rows (start_idx : ℕ) (batches : List (ℕ × List ℕ)) : List ℕ :=
  (batches.filter (fun b => start_idx ≤ b.1)).flatMap Prod.snd

/-- Line 173 of `train` (and 353 of `anneal`):
`start_idx = int(discard_prior_samples and self._round > 0)`, evaluated with
the value `self._round` has on entry — the update
`self._round = max(self._data_round_index)` only happens on the next line. -/
def train_start_idx (discard_prior_samples : Bool) (entry_round : ℕ) : ℕ :=
  if discard_prior_samples ∧ 0 < entry_round then 1 else 0

/-- The training rows selected by one `train` (or `anneal`) call, as a function
of the `discard_prior_samples` flag, the round counter on entry (0 for a fresh
estimator that has never trained; modelled from the spec, the counter's
initialisation lives outside the embedded files), and the stored batches. -/
def train_selected_rows (discard_prior_samples : Bool) (entry_round : ℕ)
    (batches : List (ℕ × List ℕ)) : List ℕ :=
  get_simulations_rows (train_start_idx discard_prior_samples entry_round) batches

/-- Line 175: `self._round = max(self._data_round_index)` — the round counter
after the call is the largest stored round tag. -/
def train_new_round (batches : List (ℕ × List ℕ)) : ℕ :=
  (batches.map Prod.fst).foldr max 0

/-! ## build_posterior (`RatioEstimator.build_posterior`, lines 597-677) -/

/-- A trained classifier network, abstracted to its parameters and the device
they live on (`next(net.parameters()).device.type`). -/
structure Net where
  weights : ℕ
  device : String
deriving DecidableEq

/-- A posterior object as far as `build_posterior` determines it: the network
the potential function was built from (`ratio_estimator_based_potential` is
called with `ratio_estimator=...`), the device handed to the sampler, and
which sampler wraps it. -/
structure PosteriorObj where
  potentialNet : Net
  device : String
  samplerKind : String
deriving DecidableEq

/-- The mutable state of the estimator that `build_posterior` reads or writes:
the internally stored trained network `self._neural_net`, its device
`self._device`, the stored prior `self._prior`, the last built posterior
`self._posterior`, and the posterior history `self._model_bank`. -/
structure EstimatorState where
  neuralNet : Net
  device : String
  priorOpt : Option ℕ
  posteriorOpt : Option PosteriorObj
  modelBank : List PosteriorObj
deriving DecidableEq

/-- Failure signals `build_posterior` can raise. -/
inductive BuildError where
  | assertionFailed
  | notImplemented
deriving DecidableEq

/-- Control flow of `build_posterior(density_estimator, prior, sample_with, ...)`
(lines 633-677): resolve the prior (asserting one exists), take the device from
the passed density estimator when one is given (the estimator is used for
nothing else) and from `self._device` otherwise, build the potential from
`self._neural_net` (line 648 — not from the passed estimator), dispatch on
`sample_with` — raising `NotImplementedError` outside `{"mcmc", "rejection"}`
before any state is written — and finally store the posterior and append a copy
to `self._model_bank`. Returns the Python result (posterior or raised error)
together with the estimator state after the call. -/
def build_posterior (st : EstimatorState) (density_estimator : Option Net)
    (prior : Option ℕ) (sample_with : String) :
    Except BuildError PosteriorObj × EstimatorState :=
  match prior, st.priorOpt with
  | none, none => (Except.error BuildError.assertionFailed, st)
  | _, _ =>
    let device :=
      match density_estimator with
      | none => st.device
      | some de => de.device
    let potentialNet := st.neuralNet
    if sample_with = "mcmc" ∨ sample_with = "rejection" then
      let p : PosteriorObj :=
        { potentialNet := potentialNet, device := device, samplerKind := sample_with }
      (Except.ok p,
        { st with posteriorOpt := some p, modelBank := st.modelBank ++ [p] })
    else
      (Except.error BuildError.notImplemented, st)

/-! ## Helper lemmas -/

/-- When every block of `L` has length `K`, block `i` of the flattened list is
recovered by dropping `i * K` elements and taking `K`. -/
theorem flatten_drop_take {α : Type} (K : ℕ) :
    ∀ (L : List (List α)) (i : ℕ), (∀ b ∈ L, b.length = K) →
      ((L.flatten.drop (i * K)).take K) = L.getD i [] := by
  intro L
  induction L with
  | nil => intro i _; simp
  | cons b L' ih =>
    intro i h
    have hb : b.length = K := h b (by simp)
    match i with
    | 0 =>
      simp only [Nat.zero_mul, List.drop_zero, List.flatten_cons, List.getD_cons_zero]
      rw [← hb, List.take_left]
    | i + 1 =>
      have hmul : (i + 1) * K = b.length + i * K := by rw [hb]; ring
      simp only [List.flatten_cons, List.getD_cons_succ, hmul, List.drop_append]
      exact ih i (fun b' hb' => h b' (by simp [hb']))

/-- Element `i` of a map over `List.range n`, for `i < n`. -/
theorem getD_map_range {α : Type} (g : ℕ → α) (d : α) {n i : ℕ} (hi : i < n) :
    ((List.range n).map g).getD i d = g i := by
  rw [List.getD_eq_getElem?_getD, List.getElem?_map, List.getElem?_range hi]
  rfl

/-- Once an exception is in flight, the epoch loop makes no further progress:
the exception propagates out of the `anneal` call. -/
theorem anneal_loop_run_raised {β : Type} (conv : β → ℕ → Bool × β)
    (target rate : ℝ) (M fuel : ℕ) (st : AnnealTrace β) (h : st.raised ≠ none) :
    anneal_loop_run conv target rate M fuel st = st := by
  cases fuel with
  | zero => rfl
  | succ n =>
    unfold anneal_loop_run
    rw [if_neg (fun hc => h hc.1)]

/-- Evaluation of a full `anneal` epoch loop with a positive epoch budget: the
first epoch's first batch raises `TypeError` out of `torch.mean`, so the call
ends with the epoch counter still at 0, the convergence check run exactly
once, the epoch-0 schedule multiplier handed to the single `self._loss` call,
and no gradient update performed — for every convergence function. -/
theorem anneal_run_eval {β : Type} (conv : β → ℕ → Bool × β) (b : β)
    (target rate : ℝ) (M : ℕ) (hM : 0 < M) :
    anneal_run conv target rate M b
      = ⟨0, (conv b 0).2, [law_of_cooling target rate 0], 0, 1,
          some PyError.typeError⟩ := by
  obtain ⟨N, rfl⟩ : ∃ N, M = N + 1 := ⟨M - 1, by omega⟩
  unfold anneal_run
  unfold anneal_loop_run
  rw [if_pos (And.intro rfl (Nat.succ_pos N))]
  have hbody : anneal_epoch_body conv target rate (⟨0, b, [], 0, 0, none⟩ : AnnealTrace β)
      = ⟨0, (conv b 0).2, [law_of_cooling target rate 0], 0, 1,
          some PyError.typeError⟩ := rfl
  rw [hbody]
  exact anneal_loop_run_raised conv target rate (N + 1) N _ (by simp)

/-! ## Claim theorems -/

/-- C1: in the correction-term atomic batch, the resampled alternates are
claimed never to hit the two rows of the ordered pair behind a block. The code
indexes the full `theta` with reduced-space draws, so at batch size 3 and
2 atoms the (unique) admissible draw yields, for the block that excludes row 0
and observes row 1, the atom row indices `[1, 1]`: the alternate *is* the
observed row, duplicating the position-0 θ; for the block that excludes row 1
and observes row 0 the alternate is the excluded row 1. -/
theorem correction_alternates_collide :
    ValidStackDraw 3 2 forced_draw ∧
    correction_block 2 forced_draw 0 0 = [1, 1] ∧
    correction_observation_index 0 0 = 1 ∧
    correction_block 2 forced_draw 1 0 = [0, 1] ∧
    correction_observation_index 1 0 = 0 ∧
    (correction_atomic_theta [10, 20, 30] 0 2 forced_draw).take 2 = [20, 20] := by
  decide

/-- C2: `num_atoms` is claimed to be clamped to
`[2, min(training_batch_size, validation_batch_size)]`, but the code clamps to
`min(training_batch_size, len(val_loader))`, the *number of validation
batches*: with 100 validation examples and training batch size 50 the loader
has 2 batches of 50, so a request of 10 atoms is cut to 2 instead of kept. -/
theorem num_atoms_clamped_to_batch_count :
    num_atoms_used 10 50 100 = 2 ∧
    spec_num_atoms_used 10 50 100 = 10 ∧
    num_atoms_used 10 50 100 ≠ spec_num_atoms_used 10 50 100 := by
  decide

/-- C3: the three loss terms are claimed to be per-sample tensors, but
`torch.binary_cross_entropy_with_logits`'s default `mean` reduction makes every
one of them a 0-dimensional scalar: at batch size 2 with 2 atoms the shapes are
`([], [], [])`, not `([2], [2], [2])`. -/
theorem loss_terms_mean_reduced :
    loss_terms_shapes 2 2 = some ([], [], []) ∧
    loss_terms_shapes 2 2 ≠ some ([2], [2], [2]) := by
  decide

/-- C9: with `discard_prior_samples=True` and a round-1 batch stored, the
round-0 rows are claimed to be excluded; but `start_idx` is computed from
`self._round` *before* the `self._round = max(self._data_round_index)` update,
so on the first training call (entry round counter 0) nothing is discarded.
Discarding does happen once the entry counter is positive, and
`discard_prior_samples=False` keeps all rows. -/
theorem discard_prior_first_call_noop :
    train_selected_rows true 0 [(0, [10]), (1, [20])] = [10, 20] ∧
    train_selected_rows false 0 [(0, [10]), (1, [20])] = [10, 20] ∧
    train_selected_rows true 1 [(0, [10]), (1, [20])] = [20] ∧
    train_new_round [(0, [10]), (1, [20])] = 1 := by
  decide

/-- C7: the `anneal` epoch loop is claimed never to exit before the epoch
counter reaches `max_num_epochs`. In fact `anneal` binds the 3-tuple returned
by `self._loss` and hands it to `torch.mean`, which raises `TypeError` on the
first epoch's first batch: for every positive `max_num_epochs` and every
convergence function the loop aborts by exception with the epoch counter still
at 0 — the convergence check ran exactly once with its result discarded, but
what ends the loop is the crash, not the counter reaching its bound. -/
theorem anneal_aborts_first_epoch {β : Type} (conv : β → ℕ → Bool × β) (b : β)
    (target rate : ℝ) (M : ℕ) (hM : 0 < M) :
    (anneal_run conv target rate M b).raised = some PyError.typeError ∧
    (anneal_run conv target rate M b).epoch = 0 ∧
    (anneal_run conv target rate M b).epoch < M ∧
    (anneal_run conv target rate M b).convChecks = 1 := by
  rw [anneal_run_eval conv b target rate M hM]
  exact ⟨rfl, rfl, hM, rfl⟩

/-- Witness for C7 at `max_num_epochs = 100` (the default). -/
theorem anneal_aborts_first_epoch_witness :
    0 < 100 ∧
    ((anneal_run (fun (b : Unit) (_ : ℕ) => (false, b)) 0 1 100 ()).raised
        = some PyError.typeError ∧
      (anneal_run (fun (b : Unit) (_ : ℕ) => (false, b)) 0 1 100 ()).epoch = 0 ∧
      (anneal_run (fun (b : Unit) (_ : ℕ) => (false, b)) 0 1 100 ()).epoch < 100 ∧
      (anneal_run (fun (b : Unit) (_ : ℕ) => (false, b)) 0 1 100 ()).convChecks = 1) :=
  ⟨by decide,
    anneal_aborts_first_epoch (fun (b : Unit) (_ : ℕ) => (false, b)) () 0 1 100 (by decide)⟩

/-- C6: the cooling-schedule multiplier is claimed to drive the gradient
update of every epoch. The epoch-0 schedule value
`target + (0.01 - target) * exp(-rate * 0)` is indeed computed and handed to
the first `self._loss` call, but `torch.mean` on the tuple `_loss` returned
raises `TypeError` before any backward pass or `optimizer.step()`, so an
`anneal` call completes zero gradient updates: no epoch's gradient update ever
uses the schedule. -/
theorem anneal_schedule_never_reaches_update {β : Type} (conv : β → ℕ → Bool × β)
    (b : β) (target rate : ℝ) (M : ℕ) (hM : 0 < M) :
    (anneal_run conv target rate M b).gradUpdates = 0 ∧
    (anneal_run conv target rate M b).lossMultipliers
      = [target + (0.01 - target) * Real.exp (-(rate * 0))] ∧
    (anneal_run conv target rate M b).raised = some PyError.typeError := by
  rw [anneal_run_eval conv b target rate M hM]
  refine ⟨rfl, ?_, rfl⟩
  simp [law_of_cooling]

/-- Witness for C6 at `target = 0`, `rate = 1`, `max_num_epochs = 100`. -/
theorem anneal_schedule_never_reaches_update_witness :
    0 < 100 ∧
    ((anneal_run (fun (b : Unit) (_ : ℕ) => (false, b)) 0 1 100 ()).gradUpdates = 0 ∧
      (anneal_run (fun (b : Unit) (_ : ℕ) => (false, b)) 0 1 100 ()).lossMultipliers
        = [0 + (0.01 - 0) * Real.exp (-(1 * 0))] ∧
      (anneal_run (fun (b : Unit) (_ : ℕ) => (false, b)) 0 1 100 ()).raised
        = some PyError.typeError) :=
  ⟨by decide,
    anneal_schedule_never_reaches_update (fun (b : Unit) (_ : ℕ) => (false, b)) () 0 1 100
      (by decide)⟩

/-- C8: calling `build_posterior` with a `sample_with` outside
`{"mcmc", "rejection"}` (given that a prior is available, so the earlier prior
assertion passes) raises `NotImplementedError` and leaves the estimator state —
in particular the `self._model_bank` posterior history — untouched: the
`NotImplementedError` branches run before `self._posterior` is assigned or the
bank is appended to. -/
theorem build_posterior_unsupported_mode (st : EstimatorState) (de : Option Net)
    (pr : Option ℕ) (sw : String) (h1 : sw ≠ "mcmc") (h2 : sw ≠ "rejection")
    (h3 : pr.isSome ∨ st.priorOpt.isSome) :
    build_posterior st de pr sw = (Except.error BuildError.notImplemented, st) := by
  unfold build_posterior
  have hsw : ¬(sw = "mcmc" ∨ sw = "rejection") := by
    rintro (h | h)
    · exact h1 h
    · exact h2 h
  rcases hpr : pr with _ | p
  · rcases hst : st.priorOpt with _ | q
    · rw [hpr, hst] at h3
      simp at h3
    · simp [hsw]
  · simp [hsw]

/-- Witness for C8 at `sample_with = "vi"` with a stored prior. -/
theorem build_posterior_unsupported_mode_witness :
    ("vi" : String) ≠ "mcmc" ∧ ("vi" : String) ≠ "rejection" ∧
    ((none : Option ℕ).isSome ∨ (some 0 : Option ℕ).isSome = true) ∧
    build_posterior ⟨⟨0, "cpu"⟩, "cpu", some 0, none, []⟩ none none "vi"
      = (Except.error BuildError.notImplemented, ⟨⟨0, "cpu"⟩, "cpu", some 0, none, []⟩) :=
  ⟨by decide, by decide, Or.inr rfl,
    build_posterior_unsupported_mode ⟨⟨0, "cpu"⟩, "cpu", some 0, none, []⟩ none none "vi"
      (by decide) (by decide) (Or.inr rfl)⟩

/-- C10: when a density estimator is passed to `build_posterior`, the potential
function of the built posterior is still constructed from the internally stored
trained network (`ratio_estimator=self._neural_net`, line 648); the passed
estimator only determines the device — replacing it by any estimator on the
same device changes nothing about the call's outcome. -/
theorem build_posterior_potential_from_internal_net (st : EstimatorState) (e : Net)
    (pr : Option ℕ) (sw : String)
    (hsw : sw = "mcmc" ∨ sw = "rejection") (hpr : pr.isSome ∨ st.priorOpt.isSome) :
    (∃ p st', build_posterior st (some e) pr sw = (Except.ok p, st') ∧
      p.potentialNet = st.neuralNet ∧ p.device = e.device) ∧
    (∀ e' : Net, e'.device = e.device →
      build_posterior st (some e') pr sw = build_posterior st (some e) pr sw) := by
  constructor
  · refine ⟨⟨st.neuralNet, e.device, sw⟩,
      { st with
        posteriorOpt := some ⟨st.neuralNet, e.device, sw⟩
        modelBank := st.modelBank ++ [⟨st.neuralNet, e.device, sw⟩] }, ?_, rfl, rfl⟩
    unfold build_posterior
    rcases hp : pr with _ | p
    · rcases hq : st.priorOpt with _ | q
      · rw [hp, hq] at hpr
        simp at hpr
      · simp [hsw]
    · simp [hsw]
  · intro e' hdev
    unfold build_posterior
    dsimp only
    rw [hdev]

/-- Witness for C10 at a concrete state, a passed estimator on device "cuda",
and `sample_with = "mcmc"`. -/
theorem build_posterior_potential_from_internal_net_witness :
    (("mcmc" : String) = "mcmc" ∨ ("mcmc" : String) = "rejection") ∧
    ((some 7 : Option ℕ).isSome = true ∨
      (⟨⟨3, "cpu"⟩, "cpu", none, none, []⟩ : EstimatorState).priorOpt.isSome) ∧
    ((∃ p st', build_posterior ⟨⟨3, "cpu"⟩, "cpu", none, none, []⟩ (some ⟨5, "cuda"⟩)
        (some 7) "mcmc" = (Except.ok p, st') ∧
      p.potentialNet = (⟨⟨3, "cpu"⟩, "cpu", none, none, []⟩ : EstimatorState).neuralNet ∧
      p.device = (⟨5, "cuda"⟩ : Net).device) ∧
    (∀ e' : Net, e'.device = (⟨5, "cuda"⟩ : Net).device →
      build_posterior ⟨⟨3, "cpu"⟩, "cpu", none, none, []⟩ (some e') (some 7) "mcmc"
        = build_posterior ⟨⟨3, "cpu"⟩, "cpu", none, none, []⟩ (some ⟨5, "cuda"⟩) (some 7) "mcmc")) :=
  ⟨Or.inl rfl, Or.inl rfl,
    build_posterior_potential_from_internal_net ⟨⟨3, "cpu"⟩, "cpu", none, none, []⟩
      ⟨5, "cuda"⟩ (some 7) "mcmc" (Or.inl rfl) (Or.inl rfl)⟩

/-- C5: for every batch size `N ≥ 3`, every atom count `2 ≤ K ≤ N` and every
possible outcome of the without-replacement multinomial draw, the primary
atomic batch of `_classifier_logits` has exactly `N * K` rows, and the atom set
of each anchor `i` (rows `i*K` to `i*K + K - 1` of the flattened batch) starts
with the anchor's own θ row followed by `K - 1` alternates drawn from pairwise
distinct rows, none of which is row `i`. -/
theorem classifier_atoms_spec {α : Type} (theta : List α) (d : α) (N K : ℕ)
    (c : ℕ → ℕ → ℕ) (hN : 3 ≤ N) (hK2 : 2 ≤ K) (hKN : K ≤ N)
    (hlen : theta.length = N) (hc : ValidDraw N (K - 1) c) (i : ℕ) (hi : i < N) :
    (classifier_atomic_theta theta d K c).length = N * K ∧
    ((classifier_atomic_theta theta d K c).drop (i * K)).take K
      = theta.getD i d :: (((List.range (K - 1)).map (c i)).map (fun j => theta.getD j d)) ∧
    ((List.range (K - 1)).map (c i)).Nodup ∧
    ∀ j ∈ (List.range (K - 1)).map (c i), j < N ∧ j ≠ i := by
  have hblock : ∀ b ∈ (List.range N).map (classifier_block K c), b.length = K := by
    intro b hb
    obtain ⟨i', _, rfl⟩ := List.mem_map.1 hb
    simp only [classifier_block, List.length_cons, List.length_map, List.length_range]
    omega
  have hidx : classifier_atom_indices theta.length K c
      = ((List.range N).map (classifier_block K c)).flatten := by
    rw [classifier_atom_indices, hlen]
  refine ⟨?_, ?_, ?_, ?_⟩
  · rw [classifier_atomic_theta, hidx, List.length_map, List.length_flatten, List.map_map]
    have hconst : List.map (List.length ∘ classifier_block K c) (List.range N)
        = List.map (Function.const ℕ K) (List.range N) := by
      apply List.map_congr_left
      intro a ha
      exact hblock _ (List.mem_map.2 ⟨a, ha, rfl⟩)
    rw [hconst, List.map_const, List.sum_replicate, List.length_range, smul_eq_mul]
  · rw [classifier_atomic_theta, hidx, ← List.map_drop, ← List.map_take,
      flatten_drop_take K _ i hblock, getD_map_range _ _ hi, classifier_block,
      List.map_cons]
  · apply List.Nodup.map_on
    · intro x hx y hy hxy
      by_contra hne
      have hx' : x < K - 1 := by simpa using hx
      have hy' : y < K - 1 := by simpa using hy
      exact (hc i hi x hx').2.2 y hy' hne hxy
    · exact List.nodup_range _
  · intro j hj
    obtain ⟨a, ha, rfl⟩ := List.mem_map.1 hj
    have ha' : a < K - 1 := by simpa using ha
    exact ⟨(hc i hi a ha').1, (hc i hi a ha').2.1⟩

/-- Witness for C5 at `theta = [10, 20, 30]`, `N = 3`, `K = 2`, the draw
`c i a = (i + 1) % 3`, and anchor `i = 0`. -/
theorem classifier_atoms_spec_witness :
    3 ≤ 3 ∧ 2 ≤ 2 ∧ 2 ≤ 3 ∧ ([10, 20, 30] : List ℕ).length = 3 ∧
    ValidDraw 3 (2 - 1) (fun i _ => (i + 1) % 3) ∧ 0 < 3 ∧
    ((classifier_atomic_theta [10, 20, 30] 0 2 (fun i _ => (i + 1) % 3)).length = 3 * 2 ∧
      ((classifier_atomic_theta [10, 20, 30] 0 2 (fun i _ => (i + 1) % 3)).drop (0 * 2)).take 2
        = ([10, 20, 30] : List ℕ).getD 0 0 ::
          (((List.range (2 - 1)).map ((fun i _ => (i + 1) % 3) 0)).map
            (fun j => ([10, 20, 30] : List ℕ).getD j 0)) ∧
      ((List.range (2 - 1)).map ((fun i _ => (i + 1) % 3) 0)).Nodup ∧
      ∀ j ∈ (List.range (2 - 1)).map ((fun i _ => (i + 1) % 3) 0), j < 3 ∧ j ≠ 0) :=
  ⟨by decide, by decide, by decide, by decide, by decide, by decide,
    classifier_atoms_spec [10, 20, 30] 0 3 2 (fun i _ => (i + 1) % 3)
      (by decide) (by decide) (by decide) (by decide) (by decide) 0 (by decide)⟩

/-- C4: the correction term is claimed to equal the naive
`log(mean(exp(negative entropy)))` over the leave-one-out entries. Because
`torch.binary_cross_entropy_with_logits` mean-reduces before the negation, the
log-sum-exp acts on a single scalar and the identity fails already on the
all-zero `1 × 2` logits matrix: the code yields `-2·log 2` while the naive
per-row value is `-log 2`. -/
theorem correction_collapses_on_zero_logits :
    correction_value [[0, 0]] = -(2 * Real.log 2) ∧
    spec_naive_correction [0, 0] = -Real.log 2 ∧
    correction_value [[0, 0]] ≠ spec_naive_correction [0, 0] := by
  have hs : sigmoid 0 = 1 / 2 := by
    simp only [sigmoid, neg_zero, Real.exp_zero]
    norm_num
  have hhalf : Real.log (1 / 2) = -Real.log 2 := by
    rw [one_div, Real.log_inv]
  have hb : bce_with_logits_elt 0 (sigmoid 0) = Real.log 2 := by
    simp only [bce_with_logits_elt, hs]
    rw [show (1 : ℝ) - 1 / 2 = 1 / 2 by norm_num, hhalf]
    ring
  have hm : bce_self_mean [[0, 0]] = Real.log 2 := by
    simp only [bce_self_mean, List.flatten, List.map_cons, List.map_nil, List.append_nil,
      List.sum_cons, List.sum_nil, List.length_cons, List.length_nil, hb]
    push_cast
    ring
  have hcv : correction_value [[0, 0]] = -(2 * Real.log 2) := by
    simp only [correction_value, logsumexp, List.map_cons, List.map_nil, List.sum_cons,
      List.sum_nil, add_zero, Real.log_exp, hm, List.headD, List.length_cons, List.length_nil]
    push_cast
    ring
  have hexp : Real.exp (-Real.log 2) = 1 / 2 := by
    rw [Real.exp_neg, Real.exp_log (by norm_num : (0 : ℝ) < 2)]
    norm_num
  have hnv : spec_naive_correction [0, 0] = -Real.log 2 := by
    simp only [spec_naive_correction, List.map_cons, List.map_nil, List.sum_cons,
      List.sum_nil, add_zero, hb, hexp, List.length_cons, List.length_nil]
    push_cast
    rw [show (1 : ℝ) / 2 + 1 / 2 = 1 by norm_num]
    rw [hhalf]
  have hlog : Real.log 2 ≠ 0 := ne_of_gt (Real.log_pos (by norm_num))
  refine ⟨hcv, hnv, ?_⟩
  rw [hcv, hnv]
  intro h
  apply hlog
  linarith
